import Mathlib

set_option maxRecDepth 8000
set_option maxHeartbeats 1000000

/-!
Shallow embedding of the go-hello-devops HTTP server (src/main.go).

The Go program is a single-file HTTP server with three handlers
(`handleRoot`, `handleHealth`, `handleMessage`), a logging middleware
(`loggingMiddleware`), and a `main` function that wires the three routes
into an `http.ServeMux` and starts a listener on a port taken from the
`PORT` environment variable (default `"8000"`).

Modelling choices:
- `GoTime` models a `time.Time` value: `unix` is a linear instant used for
  ordering and durations, the calendar fields feed the RFC 3339 renderer.
  `time.Now()` is modelled as reading successive values of a clock stream
  `clock : Nat -> GoTime` held in the effect state `St`; every call advances
  the call counter `tick`.
- `ResponseState` models an `http.ResponseWriter` as observed by
  `httptest.NewRecorder()`: headers, the written status (at most once, as in
  Go, where later `WriteHeader` calls are ignored), and the body; a body
  write with no status yet implicitly writes status 200, as in net/http.
- `Except String String` models the `error` result of
  `json.NewEncoder(w).Encode`: Go marshals to a buffer first, so on a
  marshal error nothing is written to the body.  `time.Time.MarshalJSON`
  fails exactly when the year is outside [0, 9999]; marshalling of plain
  strings never fails.
- Logging (`log.Printf`) appends a line to `St.logs`.
-/

structure GoTime where
  unix : Int
  year : Int
  month : Nat
  day : Nat
  hour : Nat
  minute : Nat
  second : Nat
deriving Repr, DecidableEq

def pad2 (n : Nat) : String :=
  if n < 10 then "0" ++ toString n else toString n

def pad4 (n : Int) : String :=
  if n < 0 then "-" ++ toString (-n)
  else if n < 10 then "000" ++ toString n
  else if n < 100 then "00" ++ toString n
  else if n < 1000 then "0" ++ toString n
  else toString n

/-- `t.Format(time.RFC3339)` for a UTC time, e.g. `2026-10-11T12:00:05Z`. -/
def GoTime.formatRFC3339 (t : GoTime) : String :=
  pad4 t.year ++ "-" ++ pad2 t.month ++ "-" ++ pad2 t.day ++ "T" ++
    pad2 t.hour ++ ":" ++ pad2 t.minute ++ ":" ++ pad2 t.second ++ "Z"

/-- `time.Time.MarshalJSON`: a quoted RFC 3339 rendering; errors when the
year is outside [0, 9999]. -/
def GoTime.marshalJSON (t : GoTime) : Except String String :=
  if t.year < 0 ∨ 10000 ≤ t.year then
    Except.error "Time.MarshalJSON: year outside of range [0,9999]"
  else
    Except.ok ("\"" ++ t.formatRFC3339 ++ "\"")

/-- JSON string quoting (the strings this server emits need no escaping). -/
def quoteJSON (s : String) : String := "\"" ++ s ++ "\""

/-- `HealthResponse` struct of src/main.go with its json tags
`status`, `timestamp`, `version`. -/
structure HealthResponse where
  status : String
  timestamp : GoTime
  version : String
deriving Repr, DecidableEq

/-- `json.Marshal` of a `HealthResponse` value. -/
def HealthResponse.marshal (h : HealthResponse) : Except String String :=
  match GoTime.marshalJSON h.timestamp with
  | Except.error e => Except.error e
  | Except.ok ts =>
      Except.ok ("\x7b\"status\":" ++ quoteJSON h.status ++ ",\"timestamp\":" ++ ts ++
        ",\"version\":" ++ quoteJSON h.version ++ "\x7d")

/-- `MessageResponse` struct of src/main.go with its json tags
`message`, `time`. -/
structure MessageResponse where
  message : String
  time : String
deriving Repr, DecidableEq

/-- `json.Marshal` of a `MessageResponse` value; marshalling two plain
strings never fails in Go. -/
def MessageResponse.marshal (m : MessageResponse) : Except String String :=
  Except.ok ("\x7b\"message\":" ++ quoteJSON m.message ++ ",\"time\":" ++
    quoteJSON m.time ++ "\x7d")

/-- An incoming `*http.Request` as far as this program reads it. -/
structure Request where
  method : String
  urlPath : String
  remoteAddr : String
  headers : List (String × String)
  body : String
deriving Repr, DecidableEq

/-- An `http.ResponseWriter` as recorded by `httptest.NewRecorder()`. -/
structure ResponseState where
  headers : List (String × String)
  status : Option Nat
  body : String
deriving Repr, DecidableEq

def ResponseState.init : ResponseState :=
  { headers := [], status := none, body := "" }

/-- `w.Header().Set(k, v)`: replace any existing value of the key. -/
def setHeader (rs : ResponseState) (k v : String) : ResponseState :=
  { rs with headers := (k, v) :: rs.headers.filter (fun p => p.1 ≠ k) }

def headerGet (rs : ResponseState) (k : String) : Option String :=
  rs.headers.lookup k

/-- `w.WriteHeader(code)`: only the first call takes effect. -/
def writeHeader (rs : ResponseState) (code : Nat) : ResponseState :=
  match rs.status with
  | some _ => rs
  | none => { rs with status := some code }

/-- `w.Write` / `fmt.Fprint(w, ...)`: an implicit `WriteHeader(200)` if no
status was written yet, then append to the body. -/
def respWrite (rs : ResponseState) (str : String) : ResponseState :=
  let rs := writeHeader rs 200
  { rs with body := rs.body ++ str }

/-- The effect state threaded through a handler call: the response writer,
the process log, and the wall clock (`clock n` is what the `n`-th call of
`time.Now()` returns; `tick` counts the calls made so far). -/
structure St where
  resp : ResponseState
  logs : List String
  clock : Nat → GoTime
  tick : Nat

/-- `time.Now()`. -/
def timeNow (s : St) : GoTime × St :=
  (s.clock s.tick, { s with tick := s.tick + 1 })

/-- `log.Printf`: append one line to the process log. -/
def logf (s : St) (line : String) : St :=
  { s with logs := s.logs ++ [line] }

def Handler : Type := Request → St → St

/-- The raw string literal assigned to `html` in `handleRoot`
(src/main.go lines 38-87). -/
def html : String := "
<!DOCTYPE html>
<html>
<head>
    <title>Hello DevOps!</title>
    <style>
        body \x7b
            font-family: -apple-system, BlinkMacSystemFont, \"Segoe UI\", Roboto, \"Helvetica Neue\", Arial, sans-serif;
            max-width: 800px;
            margin: 50px auto;
            padding: 20px;
            background: linear-gradient(135deg, #667eea 0%, #764ba2 100%);
            color: white;
            text-align: center;
        \x7d
        .container \x7b
            background: rgba(255, 255, 255, 0.1);
            border-radius: 10px;
            padding: 40px;
            backdrop-filter: blur(10px);
        \x7d
        h1 \x7b
            font-size: 3em;
            margin: 0;
        \x7d
        p \x7b
            font-size: 1.2em;
            margin: 20px 0;
        \x7d
        .info \x7b
            margin-top: 30px;
            font-size: 0.9em;
            opacity: 0.8;
        \x7d
    </style>
</head>
<body>
    <div class=\"container\">
        <h1>👋 Hello DevOps!</h1>
        <p>Welcome to your first Go web application running in Coderbox.</p>
        <p>This is where your journey begins. Start editing and watch the changes happen!</p>
        <div class=\"info\">
            <p>Try these endpoints:</p>
            <p>GET /health - Check if the service is running</p>
            <p>GET /api/message - Get a JSON response</p>
        </div>
    </div>
</body>
</html>
"

/-- `handleRoot` of src/main.go: HTML content type, status 200, the fixed
HTML body, then one log line with path and remote address. -/
def handleRoot : Handler := fun r s =>
  let rs := setHeader s.resp "Content-Type" "text/html; charset=utf-8"
  let rs := writeHeader rs 200
  let rs := respWrite rs html
  logf { s with resp := rs } ("Served request to " ++ r.urlPath ++ " from " ++ r.remoteAddr)

/-- The shared tail `if err := json.NewEncoder(w).Encode(response); err != nil
\x7b log.Printf(...) \x7d` of `handleHealth` and `handleMessage`: on success
write the JSON plus a trailing newline, on error only log. -/
def encodeJSON (s : St) (res : Except String String) (errLine : String → String) : St :=
  match res with
  | Except.ok j => { s with resp := respWrite s.resp (j ++ "\n") }
  | Except.error e => logf s (errLine e)

/-- The `HealthResponse` literal built in `handleHealth`. -/
def healthResponse (now : GoTime) : HealthResponse :=
  { status := "healthy", timestamp := now, version := "1.0.0" }

/-- `handleHealth` of src/main.go. -/
def handleHealth : Handler := fun _ s =>
  let p := timeNow s
  let response := healthResponse p.1
  let s := p.2
  let rs := setHeader s.resp "Content-Type" "application/json"
  let rs := writeHeader rs 200
  encodeJSON { s with resp := rs } (HealthResponse.marshal response)
    (fun e => "Error encoding health response: " ++ e)

/-- The message string literal of `handleMessage`. -/
def messageLiteral : String :=
  "This is your first API endpoint! Try modifying this message."

/-- `handleMessage` of src/main.go. -/
def handleMessage : Handler := fun _ s =>
  let p := timeNow s
  let response : MessageResponse :=
    { message := messageLiteral, time := p.1.formatRFC3339 }
  let s := p.2
  let rs := setHeader s.resp "Content-Type" "application/json"
  let rs := writeHeader rs 200
  encodeJSON { s with resp := rs } (MessageResponse.marshal response)
    (fun e => "Error encoding message response: " ++ e)

/-- `time.Duration.String` stand-in used only inside the middleware log line. -/
def durationString (d : Int) : String := toString d ++ "ns"

/-- `loggingMiddleware` of src/main.go: read a start time, call the wrapped
handler with the same writer and request, read the time again, log one line
with method, path and duration. -/
def loggingMiddleware (next : Handler) : Handler := fun r s =>
  let p := timeNow s
  let start := p.1
  let s1 := next r p.2
  let q := timeNow s1
  let duration := q.1.unix - start.unix
  logf q.2 (r.method ++ " " ++ r.urlPath ++ " completed in " ++ durationString duration)

/-- Whether `needle` occurs at the head of `hay`. -/
def charListHasPfx : List Char → List Char → Bool
  | [], _ => true
  | _ :: _, [] => false
  | c :: cs, d :: ds => c == d && charListHasPfx cs ds

/-- Whether `needle` occurs anywhere in `hay`. -/
def clContains (needle : List Char) : List Char → Bool
  | [] => needle.isEmpty
  | c :: t => charListHasPfx needle (c :: t) || clContains needle t

/-- Substring containment on strings. -/
def strContains (s sub : String) : Bool :=
  clContains sub.data s.data

/-- Whether `p` is a prefix of `s` (an executable `strings.HasPrefix`). -/
def strHasPfx (p s : String) : Bool :=
  charListHasPfx p.data s.data

/-- Whether `s` ends with `suffix` (an executable `strings.HasSuffix`). -/
def strEndsWith (s suffix : String) : Bool :=
  charListHasPfx suffix.data.reverse s.data.reverse

/-- `http.ServeMux` pattern matching for the patterns this program
registers: a pattern ending in "/" matches every path it is a prefix of
(a subtree root), any other pattern matches exactly. -/
def patternMatches (pat path : String) : Bool :=
  if strEndsWith pat "/" then strHasPfx pat path else pat == path

/-- `http.ServeMux` handler selection: among the registered patterns that
match the path, the longest (most specific) wins. -/
def muxMatch (rts : List (String × Handler)) (path : String) : Option (String × Handler) :=
  rts.foldl
    (fun best ph =>
      if patternMatches ph.1 path then
        match best with
        | none => some ph
        | some b => if b.1.length < ph.1.length then some ph else some b
      else best)
    none

/-- The three `mux.HandleFunc` registrations of `main`, each wrapped in the
logging middleware. -/
def routes : List (String × Handler) :=
  [("/", loggingMiddleware handleRoot),
   ("/health", loggingMiddleware handleHealth),
   ("/api/message", loggingMiddleware handleMessage)]

/-- `http.NotFound`, the mux default when no pattern matches. -/
def notFoundHandler : Handler := fun _ s =>
  let rs := setHeader s.resp "Content-Type" "text/plain; charset=utf-8"
  let rs := setHeader rs "X-Content-Type-Options" "nosniff"
  let rs := writeHeader rs 404
  { s with resp := respWrite rs "404 page not found\n" }

/-- Dispatch of one request through the server mux built in `main`. -/
def serveMux (r : Request) (s : St) : St :=
  match muxMatch routes r.urlPath with
  | some ph => ph.2 r s
  | none => notFoundHandler r s

/-- `os.Getenv`: empty string when the variable is unset. -/
def getenv (env : List (String × String)) (k : String) : String :=
  match env.lookup k with
  | some v => v
  | none => ""

/-- The port selection at the top of `main`. -/
def choosePort (env : List (String × String)) : String :=
  let port := getenv env "PORT"
  if port = "" then "8000" else port

/-- The `http.Server` literal configured in `main`. -/
structure ServerConfig where
  addr : String
  readTimeoutSec : Nat
  writeTimeoutSec : Nat
  idleTimeoutSec : Nat
deriving Repr, DecidableEq

def serverFor (env : List (String × String)) : ServerConfig :=
  { addr := ":" ++ choosePort env
    readTimeoutSec := 15
    writeTimeoutSec := 15
    idleTimeoutSec := 60 }

inductive ProcState where
  | serving : ProcState
  | exited : Nat → ProcState
deriving Repr, DecidableEq

/-- The startup path of `main`: pick the port, log the two startup lines,
call `server.ListenAndServe()` once; on error, `log.Fatalf` logs the error
and the process exits with status 1.  `listen` models the outcome of the
single bind attempt on a given address. -/
def goMain (env : List (String × String)) (listen : String → Option String) :
    ProcState × List String :=
  let port := choosePort env
  let cfg := serverFor env
  let logs := ["Starting server on port " ++ port,
               "Access the application at http://localhost:" ++ port]
  match listen cfg.addr with
  | some e => (ProcState.exited 1, logs ++ ["Server failed to start: " ++ e])
  | none => (ProcState.serving, logs)

/-- One run of `handleHealth` against a fresh recorder for each request of
the list, threading the clock from call to call: the sequential-requests
model behind the idempotence property. -/
def healthSeq (clk : Nat → GoTime) (tick0 : Nat) : List Request → List ResponseState
  | [] => []
  | r :: rest =>
      let s := handleHealth r { resp := ResponseState.init, logs := [], clock := clk, tick := tick0 }
      s.resp :: healthSeq clk s.tick rest

/-! ## Shared concrete inputs for witnesses -/

def sampleTime : GoTime :=
  { unix := 1760184000, year := 2026, month := 10, day := 11,
    hour := 12, minute := 0, second := 0 }

def sampleClock : Nat → GoTime :=
  fun n => { sampleTime with unix := sampleTime.unix + n }

def freshSt : St :=
  { resp := ResponseState.init, logs := [], clock := sampleClock, tick := 0 }

def sampleReq (path : String) : Request :=
  { method := "GET", urlPath := path, remoteAddr := "192.0.2.1:50000",
    headers := [], body := "" }

/-- A clock whose year 10000 makes `time.Time.MarshalJSON` fail. -/
def badYearClock : Nat → GoTime :=
  fun n => { unix := Int.ofNat n, year := 10000, month := 1, day := 1,
             hour := 0, minute := 0, second := 0 }

def badYearSt : St :=
  { resp := ResponseState.init, logs := [], clock := badYearClock, tick := 0 }

/-! ## Helper lemmas -/

theorem marshalJSON_ok (t : GoTime) (h0 : 0 ≤ t.year) (h1 : t.year < 10000) :
    t.marshalJSON = Except.ok ("\"" ++ t.formatRFC3339 ++ "\"") := by
  unfold GoTime.marshalJSON
  rw [if_neg (by omega : ¬(t.year < 0 ∨ 10000 ≤ t.year))]

/-- The JSON line `handleHealth` writes (including the `Encode` newline). -/
def healthBody (t : GoTime) : String :=
  ("\x7b\"status\":" ++ quoteJSON "healthy" ++ ",\"timestamp\":" ++
    ("\"" ++ t.formatRFC3339 ++ "\"") ++ ",\"version\":" ++ quoteJSON "1.0.0" ++ "\x7d") ++ "\n"

theorem healthBody_eq (t : GoTime) :
    healthBody t =
      "\x7b\"status\":\"healthy\",\"timestamp\":\"" ++ t.formatRFC3339 ++
        "\",\"version\":\"1.0.0\"\x7d\n" := by
  apply String.ext
  simp [healthBody, quoteJSON, String.data_append]

theorem healthMarshal_ok (t : GoTime) (h0 : 0 ≤ t.year) (h1 : t.year < 10000) :
    HealthResponse.marshal (healthResponse t) =
      Except.ok ("\x7b\"status\":" ++ quoteJSON "healthy" ++ ",\"timestamp\":" ++
        ("\"" ++ t.formatRFC3339 ++ "\"") ++ ",\"version\":" ++ quoteJSON "1.0.0" ++ "\x7d") := by
  unfold HealthResponse.marshal healthResponse
  rw [marshalJSON_ok t h0 h1]

/-- The JSON line `handleMessage` writes (including the `Encode` newline). -/
def messageBody (t : GoTime) : String :=
  ("\x7b\"message\":" ++ quoteJSON messageLiteral ++ ",\"time\":" ++
    quoteJSON t.formatRFC3339 ++ "\x7d") ++ "\n"

theorem messageBody_eq (t : GoTime) :
    messageBody t =
      "\x7b\"message\":\"" ++ messageLiteral ++ "\",\"time\":\"" ++ t.formatRFC3339 ++
        "\"\x7d\n" := by
  apply String.ext
  simp [messageBody, quoteJSON, messageLiteral, String.data_append]

/-! ## Claims -/

/-- C10: each handler's response is independent of the request: for the same
effect state (same clock reading), any two requests produce equal response
states (status, headers, body) under `handleRoot`, `handleHealth` and
`handleMessage`; only the logs may differ. -/
theorem c10_response_request_independent (s : St) (r1 r2 : Request) :
    (handleRoot r1 s).resp = (handleRoot r2 s).resp ∧
    (handleHealth r1 s).resp = (handleHealth r2 s).resp ∧
    (handleMessage r1 s).resp = (handleMessage r2 s).resp :=
  ⟨rfl, rfl, rfl⟩

/-- C2: `loggingMiddleware next` passes `next` the same response sink,
log and clock it received (only the time-call counter has advanced by the
start-time read), its final response state is exactly the one produced by
that single invocation of `next`, and its log is the log of `next` followed
by exactly one extra line. -/
theorem c2_loggingMiddleware_frame (next : Handler) (r : Request) (s : St) :
    ∃ s1 : St, s1.resp = s.resp ∧ s1.logs = s.logs ∧ s1.clock = s.clock ∧
      (loggingMiddleware next r s).resp = (next r s1).resp ∧
      ∃ line, (loggingMiddleware next r s).logs = (next r s1).logs ++ [line] :=
  ⟨{ s with tick := s.tick + 1 }, rfl, rfl, rfl, rfl, _, rfl⟩

/-- C3: the listen address is ":8000" when `PORT` is unset or empty, and
":" followed by the value of `PORT` when it is set and non-empty. -/
theorem c3_port_selection (env : List (String × String)) :
    ((env.lookup "PORT" = none ∨ env.lookup "PORT" = some "") →
      choosePort env = "8000" ∧ (serverFor env).addr = ":8000") ∧
    (∀ v, env.lookup "PORT" = some v → v ≠ "" →
      choosePort env = v ∧ (serverFor env).addr = ":" ++ v) := by
  constructor
  · intro h
    rcases h with h | h <;> simp [choosePort, getenv, serverFor, h]
  · intro v hv hne
    simp [choosePort, getenv, serverFor, hv, hne]

theorem c3_port_selection_witness :
    (choosePort [] = "8000" ∧ (serverFor []).addr = ":8000") ∧
    (choosePort [("PORT", "9090")] = "9090" ∧
      (serverFor [("PORT", "9090")]).addr = ":9090") := by
  refine ⟨(c3_port_selection []).1 (Or.inl (by decide)), ?_⟩
  have h := (c3_port_selection [("PORT", "9090")]).2 "9090" (by decide) (by decide)
  simpa using h

/-- C9: when the single bind attempt fails, `main` logs the failure via
`log.Fatalf` and the process exits immediately with status 1 (non-zero);
no further listen attempt and no other port appears in the model. -/
theorem c9_startup_failure_fatal (env : List (String × String))
    (listen : String → Option String) (e : String)
    (h : listen (serverFor env).addr = some e) :
    goMain env listen =
      (ProcState.exited 1,
        ["Starting server on port " ++ choosePort env,
         "Access the application at http://localhost:" ++ choosePort env,
         "Server failed to start: " ++ e]) ∧
    (1 : Nat) ≠ 0 := by
  refine ⟨?_, by decide⟩
  simp [goMain, h]

theorem c9_startup_failure_fatal_witness :
    goMain [] (fun _ => some "listen tcp :8000: bind: address already in use") =
      (ProcState.exited 1,
        ["Starting server on port 8000",
         "Access the application at http://localhost:8000",
         "Server failed to start: listen tcp :8000: bind: address already in use"]) := by
  have h := c9_startup_failure_fatal []
    (fun _ => some "listen tcp :8000: bind: address already in use")
    "listen tcp :8000: bind: address already in use" rfl
  simpa using h.1

theorem patternMatches_exactPat (pat p : String)
    (hend : strEndsWith pat "/" = false) (hne : pat ≠ p) :
    patternMatches pat p = false := by
  simp [patternMatches, hend]
  exact hne

/-- C1 (counterexample): the request path "/nope" is not one of "/",
"/health", "/api/message", yet the mux dispatches it to the root handler:
the response is 200 with the HTML page, not the mux's 404. -/
theorem c1_counterexample :
    (serveMux (sampleReq "/nope") freshSt).resp.status = some 200 ∧
    (serveMux (sampleReq "/nope") freshSt).resp.status ≠ some 404 ∧
    (serveMux (sampleReq "/nope") freshSt).resp.body = html := by
  have hs : (serveMux (sampleReq "/nope") freshSt).resp.status = some 200 := rfl
  refine ⟨hs, ?_, rfl⟩
  rw [hs]
  decide

/-- C1 (amended): the pattern "/" registered for the root handler is a
subtree pattern matching every path, so every request whose path is not
"/health" or "/api/message" (and starts with "/", as every parsed URL path
does) is dispatched to the middleware-wrapped root handler; no path reaches
the mux's default 404 handler. -/
theorem c1_amended_dispatch (r : Request) (s : St)
    (hpre : strHasPfx "/" r.urlPath = true)
    (h1 : r.urlPath ≠ "/health")
    (h2 : r.urlPath ≠ "/api/message") :
    muxMatch routes r.urlPath = some ("/", loggingMiddleware handleRoot) ∧
    serveMux r s = loggingMiddleware handleRoot r s := by
  have hc : strEndsWith "/" "/" = true := rfl
  have e1 : patternMatches "/" r.urlPath = true := by
    simp [patternMatches, hc, hpre]
  have e2 : patternMatches "/health" r.urlPath = false :=
    patternMatches_exactPat _ _ rfl (fun hh => h1 hh.symm)
  have e3 : patternMatches "/api/message" r.urlPath = false :=
    patternMatches_exactPat _ _ rfl (fun hh => h2 hh.symm)
  have hm : muxMatch routes r.urlPath = some ("/", loggingMiddleware handleRoot) := by
    simp [muxMatch, routes, e1, e2, e3]
  exact ⟨hm, by simp [serveMux, hm]⟩

theorem c1_amended_dispatch_witness :
    muxMatch routes "/nonexistent" = some ("/", loggingMiddleware handleRoot) ∧
    serveMux (sampleReq "/nonexistent") freshSt =
      loggingMiddleware handleRoot (sampleReq "/nonexistent") freshSt := by
  have h := c1_amended_dispatch (sampleReq "/nonexistent") freshSt rfl
    (by decide) (by decide)
  exact h

/-- C4: on any request handled against a fresh response writer, and any
clock whose current year is in the range `time.Time.MarshalJSON` accepts,
`handleHealth` writes status 200, Content-Type application/json, and the
JSON object with status "healthy", the RFC 3339 rendering of the current
wall-clock reading, and version "1.0.0". -/
theorem c4_health_contract (r : Request) (s : St)
    (hres : s.resp = ResponseState.init)
    (h0 : 0 ≤ (s.clock s.tick).year) (h1 : (s.clock s.tick).year < 10000) :
    (handleHealth r s).resp.status = some 200 ∧
    headerGet (handleHealth r s).resp "Content-Type" = some "application/json" ∧
    (handleHealth r s).resp.body =
      "\x7b\"status\":\"healthy\",\"timestamp\":\"" ++ (s.clock s.tick).formatRFC3339 ++
        "\",\"version\":\"1.0.0\"\x7d\n" := by
  rw [← healthBody_eq]
  simp [handleHealth, timeNow, encodeJSON, healthMarshal_ok (s.clock s.tick) h0 h1,
    hres, ResponseState.init, setHeader, writeHeader, respWrite, headerGet, healthBody,
    List.lookup]

theorem c4_health_contract_witness :
    (handleHealth (sampleReq "/health") freshSt).resp.status = some 200 ∧
    headerGet (handleHealth (sampleReq "/health") freshSt).resp "Content-Type" =
      some "application/json" ∧
    (handleHealth (sampleReq "/health") freshSt).resp.body =
      "\x7b\"status\":\"healthy\",\"timestamp\":\"2026-10-11T12:00:00Z\",\"version\":\"1.0.0\"\x7d\n" := by
  have h := c4_health_contract (sampleReq "/health") freshSt rfl (by decide) (by decide)
  simpa using h

/-- C6: on any request handled against a fresh response writer,
`handleRoot` writes status 200, Content-Type text/html; charset=utf-8, and
the fixed HTML page, which contains the substrings "Hello DevOps",
"/health" and "/api/message". -/
theorem c6_root_contract (r : Request) (s : St)
    (hres : s.resp = ResponseState.init) :
    (handleRoot r s).resp.status = some 200 ∧
    headerGet (handleRoot r s).resp "Content-Type" = some "text/html; charset=utf-8" ∧
    (handleRoot r s).resp.body = html ∧
    strContains html "Hello DevOps" = true ∧
    strContains html "/health" = true ∧
    strContains html "/api/message" = true := by
  refine ⟨?_, ?_, ?_, by decide, by decide, by decide⟩ <;>
    simp [handleRoot, logf, hres, ResponseState.init, setHeader, writeHeader,
      respWrite, headerGet, List.lookup]

theorem c6_root_contract_witness :
    (handleRoot (sampleReq "/") freshSt).resp.status = some 200 ∧
    headerGet (handleRoot (sampleReq "/") freshSt).resp "Content-Type" =
      some "text/html; charset=utf-8" ∧
    (handleRoot (sampleReq "/") freshSt).resp.body = html := by
  have h := c6_root_contract (sampleReq "/") freshSt rfl
  exact ⟨h.1, h.2.1, h.2.2.1⟩

/-- C7: on any request handled against a fresh response writer,
`handleMessage` writes status 200, Content-Type application/json, and the
JSON object whose message field is the fixed non-empty literal of
src/main.go and whose time field is the RFC 3339 rendering of the current
wall-clock reading. -/
theorem c7_message_contract (r : Request) (s : St)
    (hres : s.resp = ResponseState.init) :
    (handleMessage r s).resp.status = some 200 ∧
    headerGet (handleMessage r s).resp "Content-Type" = some "application/json" ∧
    (handleMessage r s).resp.body =
      "\x7b\"message\":\"" ++ messageLiteral ++ "\",\"time\":\"" ++
        (s.clock s.tick).formatRFC3339 ++ "\"\x7d\n" ∧
    messageLiteral ≠ "" := by
  rw [← messageBody_eq]
  refine ⟨?_, ?_, ?_, by decide⟩ <;>
    simp [handleMessage, timeNow, encodeJSON, MessageResponse.marshal, quoteJSON,
      hres, ResponseState.init, setHeader, writeHeader, respWrite, headerGet,
      messageBody, List.lookup]

theorem c7_message_contract_witness :
    (handleMessage (sampleReq "/api/message") freshSt).resp.status = some 200 ∧
    headerGet (handleMessage (sampleReq "/api/message") freshSt).resp "Content-Type" =
      some "application/json" ∧
    (handleMessage (sampleReq "/api/message") freshSt).resp.body =
      "\x7b\"message\":\"This is your first API endpoint! Try modifying this message.\",\"time\":\"2026-10-11T12:00:00Z\"\x7d\n" := by
  have h := c7_message_contract (sampleReq "/api/message") freshSt rfl
  refine ⟨h.1, h.2.1, ?_⟩
  have hb := h.2.2.1
  simpa [messageLiteral] using hb

/-- C5: if JSON encoding of the health response fails after status and
headers were written, `handleHealth` logs the error and changes nothing
else: status stays 200, the Content-Type header stays, no body is written.
The shared encode step used by both JSON handlers leaves the response
untouched and only appends the log line on any error; marshalling a
`MessageResponse` (two plain strings) never fails. -/
theorem c5_encode_failure_logged (r : Request) (s : St) (e : String)
    (hres : s.resp = ResponseState.init)
    (herr : HealthResponse.marshal (healthResponse (s.clock s.tick)) = Except.error e) :
    (handleHealth r s).resp.status = some 200 ∧
    headerGet (handleHealth r s).resp "Content-Type" = some "application/json" ∧
    (handleHealth r s).resp.body = "" ∧
    (handleHealth r s).logs = s.logs ++ ["Error encoding health response: " ++ e] ∧
    (∀ (s2 : St) (msgf : String → String) (e2 : String),
        encodeJSON s2 (Except.error e2) msgf =
          { s2 with logs := s2.logs ++ [msgf e2] }) ∧
    (∀ (m : MessageResponse) (e2 : String),
        MessageResponse.marshal m ≠ Except.error e2) := by
  refine ⟨?_, ?_, ?_, ?_, fun s2 msgf e2 => rfl,
    fun m e2 => by simp [MessageResponse.marshal]⟩ <;>
    simp [handleHealth, timeNow, encodeJSON, herr, logf, hres, ResponseState.init,
      setHeader, writeHeader, respWrite, headerGet, List.lookup]

theorem c5_encode_failure_logged_witness :
    HealthResponse.marshal (healthResponse (badYearSt.clock badYearSt.tick)) =
      Except.error "Time.MarshalJSON: year outside of range [0,9999]" ∧
    (handleHealth (sampleReq "/health") badYearSt).resp.status = some 200 ∧
    (handleHealth (sampleReq "/health") badYearSt).resp.body = "" ∧
    (handleHealth (sampleReq "/health") badYearSt).logs =
      ["Error encoding health response: Time.MarshalJSON: year outside of range [0,9999]"] := by
  have h := c5_encode_failure_logged (sampleReq "/health") badYearSt
    "Time.MarshalJSON: year outside of range [0,9999]" rfl rfl
  refine ⟨rfl, h.1, h.2.2.1, ?_⟩
  simpa using h.2.2.2.1

theorem handleHealth_tick (r : Request) (s : St) :
    (handleHealth r s).tick = s.tick + 1 := by
  simp only [handleHealth, timeNow, encodeJSON]
  split <;> rfl

theorem handleHealth_resp_fresh (r : Request) (clk : Nat → GoTime) (L : List String)
    (k : Nat) (h0 : 0 ≤ (clk k).year) (h1 : (clk k).year < 10000) :
    (handleHealth r { resp := ResponseState.init, logs := L, clock := clk, tick := k }).resp =
      { headers := [("Content-Type", "application/json")], status := some 200,
        body := healthBody (clk k) } := by
  simp [handleHealth, timeNow, encodeJSON, healthMarshal_ok (clk k) h0 h1,
    ResponseState.init, setHeader, writeHeader, respWrite, healthBody]

theorem healthSeq_cons (clk : Nat → GoTime) (tick0 : Nat) (r : Request)
    (rest : List Request) :
    healthSeq clk tick0 (r :: rest) =
      (handleHealth r
          { resp := ResponseState.init, logs := [], clock := clk, tick := tick0 }).resp ::
        healthSeq clk (tick0 + 1) rest := by
  simp [healthSeq, handleHealth_tick]

theorem healthSeq_get (clk : Nat → GoTime)
    (hy : ∀ k, 0 ≤ (clk k).year ∧ (clk k).year < 10000) :
    ∀ (reqs : List Request) (tick0 i : Nat)
      (hi : i < (healthSeq clk tick0 reqs).length),
      (healthSeq clk tick0 reqs).get ⟨i, hi⟩ =
        { headers := [("Content-Type", "application/json")], status := some 200,
          body := healthBody (clk (tick0 + i)) } := by
  intro reqs
  induction reqs with
  | nil =>
      intro tick0 i hi
      simp [healthSeq] at hi
  | cons r rest ih =>
      intro tick0 i hi
      rw [List.get_of_eq (healthSeq_cons clk tick0 r rest)]
      cases i with
      | zero =>
          exact handleHealth_resp_fresh r clk [] tick0 (hy tick0).1 (hy tick0).2
      | succ n =>
          have hn : n < (healthSeq clk (tick0 + 1) rest).length := by
            have hlen := hi
            rw [healthSeq_cons] at hlen
            simpa using hlen
          have hrec := ih (tick0 + 1) n hn
          have harith : tick0 + 1 + n = tick0 + (n + 1) := by omega
          rw [← harith]
          exact hrec

/-- C8: for any sequence of requests served by `handleHealth` against fresh
response writers with the clock threaded from request to request (and years
in the marshallable range), every response is structurally identical — same
status 200, same Content-Type header, and a body with the same fields,
status "healthy" and version "1.0.0" — the only varying part being the
timestamp, which is the clock reading of the i-th handling; and whenever
the wall clock is monotone, those timestamps are monotonically
non-decreasing in request order. -/
theorem c8_health_idempotent_monotone (clk : Nat → GoTime) (tick0 : Nat)
    (reqs : List Request)
    (hy : ∀ k, 0 ≤ (clk k).year ∧ (clk k).year < 10000)
    (hm : ∀ i j, i ≤ j → (clk i).unix ≤ (clk j).unix) :
    (∀ i (hi : i < (healthSeq clk tick0 reqs).length),
      (healthSeq clk tick0 reqs).get ⟨i, hi⟩ =
        { headers := [("Content-Type", "application/json")], status := some 200,
          body := healthBody (clk (tick0 + i)) }) ∧
    (∀ i j, i ≤ j →
      ((healthResponse (clk (tick0 + i))).timestamp).unix ≤
        ((healthResponse (clk (tick0 + j))).timestamp).unix) := by
  constructor
  · intro i hi
    exact healthSeq_get clk hy reqs tick0 i hi
  · intro i j hij
    exact hm _ _ (Nat.add_le_add_left hij tick0)

theorem c8_health_idempotent_monotone_witness :
    (healthSeq sampleClock 0 [sampleReq "/health", sampleReq "/health"]).get
        ⟨0, by decide⟩ =
      { headers := [("Content-Type", "application/json")], status := some 200,
        body := healthBody (sampleClock 0) } ∧
    (healthSeq sampleClock 0 [sampleReq "/health", sampleReq "/health"]).get
        ⟨1, by decide⟩ =
      { headers := [("Content-Type", "application/json")], status := some 200,
        body := healthBody (sampleClock 1) } ∧
    ((healthResponse (sampleClock 0)).timestamp).unix ≤
      ((healthResponse (sampleClock 1)).timestamp).unix := by
  have hy : ∀ k, 0 ≤ (sampleClock k).year ∧ (sampleClock k).year < 10000 := by
    intro k
    refine ⟨?_, ?_⟩ <;> norm_num [sampleClock, sampleTime]
  have hm : ∀ i j, i ≤ j → (sampleClock i).unix ≤ (sampleClock j).unix := by
    intro i j hij
    simp only [sampleClock, sampleTime]
    omega
  have h := c8_health_idempotent_monotone sampleClock 0
    [sampleReq "/health", sampleReq "/health"] hy hm
  refine ⟨?_, ?_, ?_⟩
  · simpa using h.1 0 (by decide)
  · simpa using h.1 1 (by decide)
  · simpa using h.2 0 1 (by omega)
